import Mathlib

/-!
Verification development for the pelita round-orchestration engine and its
message protocol, shallowly embedded from:
  * src/pelita/messaging/messages.py  (Query / Notification / Response / Error)
  * src/pelita/game_master.py         (GameMaster.play, GameMaster.play_round)

Python values carried by messages (method, params, id, result, error) are
modelled by the inductive `Val`; Python `None` is `Val.none`.  Python
exceptions become `Except` results, and `random.choice` becomes selection by
an oracle index modulo the list length.
-/

/-- Transport-neutral values carried in message fields (`None`, strings,
integers, lists). -/
inductive Val where
  | none : Val
  | str (s : String) : Val
  | int (n : Int) : Val
  | list (items : List Val) : Val

/-- The four message variants of `pelita.messaging.messages`.  The runtime
`channel` attribute of `Query` is not message data (it never appears in
`dict`) and is modelled separately by `QueryObj`. -/
inductive Message where
  | query (method : Val) (params : Val) (id : Val) : Message
  | notification (method : Val) (params : Val) : Message
  | response (result : Val) (id : Val) : Message
  | error (error : Val) (id : Val) : Message

/-- `is_response` properties of the four classes: `Query.is_response` and
`Notification.is_response` return `False`, `Response.is_response` returns
`True`, and `Error.is_response` returns `self.id is not None`. -/
def Message.is_response : Message → Bool
  | .query _ _ _ => false
  | .notification _ _ => false
  | .response _ _ => true
  | .error _ id => match id with
    | Val.none => false
    | _ => true

/-- `wants_response` properties: `True` only for `Query`. -/
def Message.wants_response : Message → Bool
  | .query _ _ _ => true
  | .notification _ _ => false
  | .response _ _ => false
  | .error _ _ => false

/-- The structural form (`dict`) of a message: a mapping of named fields. -/
abbrev Dict := List (String × Val)

/-- The `dict` property of each class. -/
def Message.dict : Message → Dict
  | .query method params id => [("method", method), ("params", params), ("id", id)]
  | .notification method params => [("method", method), ("params", params)]
  | .response result id => [("result", result), ("id", id)]
  | .error e id => [("error", e), ("id", id)]

/-- Field lookup in a structural form (first binding wins, as in a dict whose
keys are unique). -/
def lookupF : Dict → String → Option Val
  | [], _ => Option.none
  | (k, v) :: rest, key => if k = key then Option.some v else lookupF rest key

/-- `cls(**d)` succeeds exactly when the key set of `d` equals the
constructor's parameter set: every parameter is present and no unexpected key
remains (a missing or extra keyword raises `TypeError`). -/
def hasExactKeys (d : Dict) (fields : List String) : Bool :=
  fields.all (fun f => (d.map Prod.fst).contains f) &&
    (d.map Prod.fst).all (fun k => fields.contains k)

/-- Field value of a structural form, `Val.none` if absent (only used where
presence is guaranteed by `hasExactKeys`). -/
def getF (d : Dict) (k : String) : Val :=
  (lookupF d k).getD Val.none

/-- `_load_message`: try each constructor of `_defined_messages = [Query,
Notification, Response, Error]` in order; the first whose keyword set matches
succeeds; otherwise raise `ValueError` carrying the offending input. -/
def _load_message (d : Dict) : Except Dict Message :=
  if hasExactKeys d ["method", "params", "id"] then
    Except.ok (Message.query (getF d "method") (getF d "params") (getF d "id"))
  else if hasExactKeys d ["method", "params"] then
    Except.ok (Message.notification (getF d "method") (getF d "params"))
  else if hasExactKeys d ["result", "id"] then
    Except.ok (Message.response (getF d "result") (getF d "id"))
  else if hasExactKeys d ["error", "id"] then
    Except.ok (Message.error (getF d "error") (getF d "id"))
  else
    Except.error d

/-- The runtime `Query` object: `__init__` stores `method`, `params`, `id`
and sets `channel = None`; the channel, when bound, is something with a `put`
method, modelled as a mailbox of messages. -/
structure QueryObj where
  method : Val
  params : Val
  id : Val
  channel : Option (List Message)

/-- `Query.__init__(method, params, id)`. -/
def QueryObj.init (method params id : Val) : QueryObj :=
  ⟨method, params, id, Option.none⟩

/-- `Query.response(result) = Response(result, self.id)`. -/
def QueryObj.response (q : QueryObj) (result : Val) : Message :=
  Message.response result q.id

/-- `Query.error_msg(error) = Error(error, self.id)`. -/
def QueryObj.error_msg (q : QueryObj) (e : Val) : Message :=
  Message.error e q.id

/-- `self.channel.put(msg)`: with `channel = None` this is an
`AttributeError` (modelled as `Except.error ()`); otherwise the message is
appended to the mailbox. -/
def chanPut (ch : Option (List Message)) (m : Message) : Except Unit (List Message) :=
  match ch with
  | Option.none => Except.error ()
  | Option.some box => Except.ok (box ++ [m])

/-- `Query.reply(result) = self.channel.put(self.response(result))`. -/
def QueryObj.reply (q : QueryObj) (result : Val) : Except Unit (List Message) :=
  chanPut q.channel (q.response result)

/-- `Query.reply_error(error) = self.channel.put(self.error_msg(error))`. -/
def QueryObj.reply_error (q : QueryObj) (e : Val) : Except Unit (List Message) :=
  chanPut q.channel (q.error_msg e)

/-!
## Round orchestration (`game_master.py`)

The board/world model (`datamodel`, the `Universe`) is an external
collaborator: it is modelled as an abstract state type `U` together with the
operations `GameMaster.play_round` consumes.  `move_bot` may fail with
`IllegalMoveException` (`Except.error ()`), in which case it performs no
mutation.  `random.choice(moves)` is modelled by an oracle index taken modulo
the list length.  Each bot's `_get_move` call either returns a proposed move,
raises `PlayerTimeout`, or raises `PlayerDisconnected`.
-/

/-- Positions and moves are integer pairs; `datamodel.stop` is `(0, 0)`. -/
abbrev Move := Int × Int

/-- `datamodel.stop`. -/
def stop : Move := (0, 0)

/-- The live bot data the engine reads: `bot.team_index` and
`bot.current_pos`. -/
structure BotInfo where
  teamIndex : Nat
  currentPos : Move

/-- Universe events the engine inspects: `TeamWins(team)`,
`TimeoutEvent(team)`, and the other board events produced by `move_bot`
(movement and side effects), which the engine never looks inside. -/
inductive Event where
  | teamWins (teamIndex : Nat) : Event
  | timeoutEvent (teamIndex : Nat) : Event
  | boardEvent (tag : Nat) : Event
deriving DecidableEq, Repr

/-- `datamodel.TeamWins in events` on a `TypeAwareList`: true iff some
element is a `TeamWins` instance. -/
def containsTeamWins (events : List Event) : Bool :=
  events.any fun e => match e with
    | Event.teamWins _ => true
    | _ => false

/-- The board collaborator interface consumed by `GameMaster` (§6 of the
spec): a fixed number of bots and teams, live per-bot reads, legal-move
lookup (the keys of `get_legal_moves`), and `move_bot`, which fails with
`IllegalMoveException` (no mutation) on an illegal move. -/
structure Board (U : Type) where
  nbots : Nat
  nteams : Nat
  botAt : U → Nat → BotInfo
  getLegalMoves : U → Move → List Move
  moveBot : U → Nat → Move → Except Unit (U × List Event)

/-- Outcome of `player_team._get_move(bot.index, universe.copy())`: a
returned move, a `PlayerTimeout`, or a `PlayerDisconnected`. -/
inductive MoveOutcome where
  | ok (mv : Move) : MoveOutcome
  | timeout : MoveOutcome
  | disconnected : MoveOutcome

/-- Failures that escape a bot's move resolution: `moves.remove(stop)` on a
list not containing `stop` raises `ValueError`; `move_bot` on the chosen
fallback move may itself raise `IllegalMoveException`, which the handler does
not catch; and the `NameError` raised when the first except clause
`except (uni.IllegalMoveException, PlayerTimeout)` is evaluated, because
`uni` is bound by no import of `game_master.py` (the module imports
`datamodel`). -/
inductive RoundError where
  | valueError : RoundError
  | illegalFallback : RoundError
  | nameError : RoundError
deriving DecidableEq, Repr

/-- Python `not team_index` used as the other team's index: `not 0` is
`True` (index 1), `not n` for nonzero `n` is `False` (index 0). -/
def pyNot (t : Nat) : Nat :=
  if t = 0 then 1 else 0

/-- The fallback candidate list of the timeout / illegal-move handler:
`moves.remove(stop)` (first occurrence), then `if not moves: moves = [stop]`.
Assumes `stop ∈ moves`; `resolveFallback` checks that first. -/
def fallbackMoves (legal : List Move) : List Move :=
  if legal.erase stop = [] then [stop] else legal.erase stop

/-- `random.choice(moves)` under oracle `rnd`: element `rnd % len(moves)`. -/
def chooseFallback (legal : List Move) (rnd : Nat) : Move :=
  (fallbackMoves legal).getD (rnd % (fallbackMoves legal).length) stop

/-- The `except (IllegalMoveException, PlayerTimeout)` handler: read the
bot's legal moves, remove `stop` (raising `ValueError` when absent), fall
back to `[stop]` when nothing remains, pick a random candidate, apply it, and
append one `TimeoutEvent` tagged with the bot's team. -/
def resolveFallback (U : Type) (B : Board U) (i : Nat) (rnd : Nat) (u : U) :
    Except RoundError (U × List Event) :=
  let legal := B.getLegalMoves u (B.botAt u i).currentPos
  if stop ∈ legal then
    match B.moveBot u i (chooseFallback legal rnd) with
    | Except.ok (u', evs) =>
        Except.ok (u', evs ++ [Event.timeoutEvent (B.botAt u' i).teamIndex])
    | Except.error _ => Except.error RoundError.illegalFallback
  else
    Except.error RoundError.valueError

/-- One bot's turn inside `play_round`, with the except clauses read as
evidently intended (`datamodel.IllegalMoveException`): apply the proposed
move when it is legal; on `IllegalMoveException` or `PlayerTimeout` run the
fallback handler; on `PlayerDisconnected` leave the universe untouched and
produce the single event `TeamWins(not bot.team_index)`.  The literal
runtime semantics of the source, whose first except clause names the
unbound `uni`, is `resolveBotPy` below. -/
def resolveBot (U : Type) (B : Board U) (outcome : MoveOutcome) (rnd : Nat)
    (i : Nat) (u : U) : Except RoundError (U × List Event) :=
  match outcome with
  | MoveOutcome.ok mv =>
    match B.moveBot u i mv with
    | Except.ok r => Except.ok r
    | Except.error _ => resolveFallback U B i rnd u
  | MoveOutcome.timeout => resolveFallback U B i rnd u
  | MoveOutcome.disconnected =>
    Except.ok (u, [Event.teamWins (pyNot (B.botAt u i).teamIndex)])

/-- One bot's turn under the literal runtime semantics of the source: when
any exception escapes the `try` body, Python evaluates the first except
clause `except (uni.IllegalMoveException, PlayerTimeout)`, and since `uni`
is bound by no import of `game_master.py`, that evaluation raises
`NameError`, which propagates; no handler (not even `except
PlayerDisconnected`) is ever entered. -/
def resolveBotPy (U : Type) (B : Board U) (outcome : MoveOutcome) (rnd : Nat)
    (i : Nat) (u : U) : Except RoundError (U × List Event) :=
  match outcome with
  | MoveOutcome.ok mv =>
    match B.moveBot u i mv with
    | Except.ok r => Except.ok r
    | Except.error _ => Except.error RoundError.nameError
  | MoveOutcome.timeout => Except.error RoundError.nameError
  | MoveOutcome.disconnected => Except.error RoundError.nameError

/-- One `v.observe(current_game_time, i, universe.copy(), deepcopy(events))`
payload, broadcast to every viewer after bot `i` is resolved. -/
structure Broadcast (U : Type) where
  round : Nat
  botIdx : Nat
  snapshot : U
  events : List Event

/-- The body of `play_round`'s `for i, bot in enumerate(self.universe.bots)`
loop over the remaining bot indices: resolve each bot, record its broadcast,
and return `False` (with the trace so far) as soon as the bot's events
contain a `TeamWins`; return `True` after the last bot otherwise.  (The
`filter_type(TimeoutEvent)` loop in the source has an empty body — the score
penalty is commented out — and is omitted.) -/
def playRoundGo (U : Type) (B : Board U) (outs : Nat → MoveOutcome)
    (rnd : Nat → Nat) (gt : Nat) :
    List Nat → U → Except RoundError (Bool × U × List (Broadcast U))
  | [], u => Except.ok (true, u, [])
  | i :: rest, u =>
    match resolveBot U B (outs i) (rnd i) i u with
    | Except.error e => Except.error e
    | Except.ok (u', evs) =>
      let ob : Broadcast U := ⟨gt, i, u', evs⟩
      if containsTeamWins evs then Except.ok (false, u', [ob])
      else
        match playRoundGo U B outs rnd gt rest u' with
        | Except.error e => Except.error e
        | Except.ok (c, u'', obs) => Except.ok (c, u'', ob :: obs)

/-- `GameMaster.play_round(current_game_time)`: all bots move once, in
ascending index order; the result is the continue flag, the final universe,
and the per-bot broadcast trace. -/
def play_round (U : Type) (B : Board U) (outs : Nat → MoveOutcome)
    (rnd : Nat → Nat) (gt : Nat) (u : U) :
    Except RoundError (Bool × U × List (Broadcast U)) :=
  playRoundGo U B outs rnd gt (List.range B.nbots) u

/-- The inner `for v in self.viewers` loop: each registered viewer receives
the bot's broadcast, viewer 0 first. -/
def broadcastToViewers (U : Type) (nviewers : Nat) (ob : Broadcast U) :
    List (Nat × Broadcast U) :=
  (List.range nviewers).map fun v => (v, ob)

/-- The full delivery trace of a round or match: for each bot-move, every
viewer receives that bot's broadcast before the next bot is resolved. -/
def deliveries (U : Type) (nviewers : Nat) (obs : List (Broadcast U)) :
    List (Nat × Broadcast U) :=
  (obs.map (broadcastToViewers U nviewers)).flatten

/-- Errors escaping `GameMaster.play`: the `IndexError` raised when the
number of registered player teams differs from the number of board teams
(the spec's `TeamMismatch`), or an error escaping a round. -/
inductive GameError where
  | teamMismatch : GameError
  | roundError (e : RoundError) : GameError
deriving DecidableEq, Repr

/-- The `for gt in range(self.game_time)` loop of `play` over the remaining
round indices: run each round and stop as soon as `play_round` returns
`False`. -/
def playGo (U : Type) (B : Board U) (outs : Nat → Nat → MoveOutcome)
    (rnd : Nat → Nat → Nat) :
    List Nat → U → Except RoundError (U × List (Broadcast U))
  | [], u => Except.ok (u, [])
  | gt :: rest, u =>
    match play_round U B (outs gt) (rnd gt) gt u with
    | Except.error e => Except.error e
    | Except.ok (cont, u', obs) =>
      if cont then
        match playGo U B outs rnd rest u' with
        | Except.error e => Except.error e
        | Except.ok (u'', obs') => Except.ok (u'', obs ++ obs')
      else Except.ok (u', obs)

/-- `GameMaster.play()`: raise `IndexError` when the number of registered
player teams differs from `len(self.universe.teams)`, before any round runs;
otherwise play rounds `0 .. game_time - 1`, stopping early the first time
`play_round` returns `False`. -/
def play (U : Type) (B : Board U) (nPlayerTeams gameTime : Nat)
    (outs : Nat → Nat → MoveOutcome) (rnd : Nat → Nat → Nat) (u : U) :
    Except GameError (U × List (Broadcast U)) :=
  if nPlayerTeams ≠ B.nteams then Except.error GameError.teamMismatch
  else
    match playGo U B outs rnd (List.range gameTime) u with
    | Except.error e => Except.error (GameError.roundError e)
    | Except.ok r => Except.ok r

/-- `self.universe.get_legal_moves(bot.current_pos)` (its key list). -/
def legalAt (U : Type) (B : Board U) (u : U) (i : Nat) : List Move :=
  B.getLegalMoves u (B.botAt u i).currentPos

/-- A concrete two-bot, two-team universe instance used to exercise the
engine: the state is the bot list itself, every move is applied by simple
vector addition, and every application succeeds. -/
abbrev DemoU := List BotInfo

/-- Initial demo state: bot 0 on team 0 at the origin, bot 1 on team 1. -/
def demoU0 : DemoU := [⟨0, (0, 0)⟩, ⟨1, (3, 0)⟩]

/-- Demo board: legal moves are `stop` and east; `move_bot` always succeeds
and reports one board event. -/
def demoBoard : Board DemoU where
  nbots := 2
  nteams := 2
  botAt u i := u.getD i ⟨0, stop⟩
  getLegalMoves _ _ := [stop, (1, 0)]
  moveBot u i mv :=
    let b := u.getD i ⟨0, stop⟩
    Except.ok (u.set i ⟨b.teamIndex, (b.currentPos.1 + mv.1, b.currentPos.2 + mv.2)⟩,
      [Event.boardEvent i])

/-- Demo board for a state where staying in place is not among the legal
moves. -/
def demoBoardNoStop : Board DemoU where
  nbots := 2
  nteams := 2
  botAt u i := u.getD i ⟨0, stop⟩
  getLegalMoves _ _ := [(1, 0)]
  moveBot u i mv :=
    let b := u.getD i ⟨0, stop⟩
    Except.ok (u.set i ⟨b.teamIndex, (b.currentPos.1 + mv.1, b.currentPos.2 + mv.2)⟩,
      [Event.boardEvent i])

/-- Structural description of a successful `playRoundGo` run: the broadcast
trace covers a prefix of the remaining bot indices (all of them when the
round continues), every broadcast carries the round number, the round stops
iff some broadcast's events contain a `TeamWins`, and in that case the
`TeamWins` broadcast is the last one of the trace. -/
theorem playRoundGo_spec (U : Type) (B : Board U) (outs : Nat → MoveOutcome)
    (rnd : Nat → Nat) (gt : Nat) :
    ∀ is u c u' obs, playRoundGo U B outs rnd gt is u = Except.ok (c, u', obs) →
      (obs.map Broadcast.botIdx <+: is) ∧
      (c = true → obs.map Broadcast.botIdx = is) ∧
      (∀ ob ∈ obs, ob.round = gt) ∧
      (c = false ↔ ∃ ob ∈ obs, containsTeamWins ob.events = true) ∧
      (c = false → ∃ pre lastob, obs = pre ++ [lastob] ∧
        containsTeamWins lastob.events = true ∧
        ∀ ob ∈ pre, containsTeamWins ob.events = false) := by
  intro is
  induction is with
  | nil =>
    intro u c u' obs h
    simp only [playRoundGo, Except.ok.injEq, Prod.mk.injEq] at h
    obtain ⟨hc, hu, hobs⟩ := h
    subst hc; subst hobs
    simp
  | cons i rest ih =>
    intro u c u' obs h
    simp only [playRoundGo] at h
    split at h
    · exact absurd h (by simp)
    · rename_i p u1 evs hres
      split at h
      · rename_i htw
        simp only [Except.ok.injEq, Prod.mk.injEq] at h
        obtain ⟨hc, hu, hobs⟩ := h
        subst hc; subst hobs
        refine ⟨⟨rest, rfl⟩, by simp, by simp, by simp [htw], ?_⟩
        intro _
        exact ⟨[], ⟨gt, i, u1, evs⟩, by simp, htw, by simp⟩
      · rename_i htw
        split at h
        · exact absurd h (by simp)
        · rename_i q c2 u2 obs2 hrec
          simp only [Except.ok.injEq, Prod.mk.injEq] at h
          obtain ⟨hc, hu, hobs⟩ := h
          subst hc; subst hobs
          obtain ⟨ih1, ih2, ih3, ih4, ih5⟩ := ih u1 _ u2 obs2 hrec
          refine ⟨?_, ?_, ?_, ?_, ?_⟩
          · obtain ⟨t, ht⟩ := ih1
            exact ⟨t, by simp [ht]⟩
          · intro hctrue
            simp [ih2 hctrue]
          · intro ob hob
            rcases List.mem_cons.mp hob with h1 | h1
            · subst h1; rfl
            · exact ih3 ob h1
          · constructor
            · intro hcf
              obtain ⟨ob, hob, hobtw⟩ := ih4.mp hcf
              exact ⟨ob, List.mem_cons_of_mem _ hob, hobtw⟩
            · intro ⟨ob, hob, hobtw⟩
              rcases List.mem_cons.mp hob with h1 | h1
              · subst h1; simp [htw] at hobtw
              · exact ih4.mpr ⟨ob, h1, hobtw⟩
          · intro hcf
            obtain ⟨pre, lastob, heq, hltw, hpre⟩ := ih5 hcf
            refine ⟨⟨gt, i, u1, evs⟩ :: pre, lastob, by simp [heq], hltw, ?_⟩
            intro ob hob
            rcases List.mem_cons.mp hob with h1 | h1
            · subst h1; simpa using htw
            · exact hpre ob h1

/-- A prefix of `List.range n` is the range of its own length. -/
theorem prefix_range_eq {l : List Nat} {n : Nat} (h : l <+: List.range n) :
    l = List.range l.length := by
  have hlen : l.length ≤ n := by simpa using h.length_le
  calc l = (List.range n).take l.length := List.prefix_iff_eq_take.mp h
    _ = List.range (min l.length n) := List.take_range _ _
    _ = List.range l.length := by rw [Nat.min_eq_left hlen]

/-- C1: for every round, `play_round` returns "do not continue" (`false`)
iff a `TeamWins` event appears among the events of some bot-move of that
round; on `TeamWins` it returns right after that bot's broadcast — the
trace ends at that bot, earlier bots' events have no `TeamWins`, and later
bots are not resolved — and otherwise it returns "continue" (`true`) after
every bot (indices `0 .. nbots - 1`) has moved once. -/
theorem c1_play_round_teamwins (U : Type) (B : Board U) (outs : Nat → MoveOutcome)
    (rnd : Nat → Nat) (gt : Nat) (u : U) (c : Bool) (u' : U) (obs : List (Broadcast U))
    (h : play_round U B outs rnd gt u = Except.ok (c, u', obs)) :
    (c = false ↔ ∃ ob ∈ obs, containsTeamWins ob.events = true) ∧
    (c = false → ∃ pre lastob, obs = pre ++ [lastob] ∧
        containsTeamWins lastob.events = true ∧
        (∀ ob ∈ pre, containsTeamWins ob.events = false) ∧
        obs.map Broadcast.botIdx = List.range obs.length ∧
        obs.length ≤ B.nbots) ∧
    (c = true → obs.map Broadcast.botIdx = List.range B.nbots) := by
  obtain ⟨h1, h2, h3, h4, h5⟩ :=
    playRoundGo_spec U B outs rnd gt (List.range B.nbots) u c u' obs h
  refine ⟨h4, ?_, h2⟩
  intro hcf
  obtain ⟨pre, lastob, heq, hltw, hpre⟩ := h5 hcf
  have hpr : obs.map Broadcast.botIdx = List.range obs.length := by
    have := prefix_range_eq h1
    simpa using this
  exact ⟨pre, lastob, heq, hltw, hpre, hpr, by simpa using h1.length_le⟩

/-- Concrete run for C1: on the demo board, bot 0 disconnecting makes
`play_round` stop after bot 0's broadcast, whose events hold the `TeamWins`. -/
theorem c1_play_round_teamwins_witness :
    play_round DemoU demoBoard (fun _ => MoveOutcome.disconnected) (fun _ => 0) 0 demoU0 =
      Except.ok (false, demoU0, [⟨0, 0, demoU0, [Event.teamWins 1]⟩]) ∧
    ∃ ob ∈ [(⟨0, 0, demoU0, [Event.teamWins 1]⟩ : Broadcast DemoU)],
      containsTeamWins ob.events = true := by
  have h : play_round DemoU demoBoard (fun _ => MoveOutcome.disconnected) (fun _ => 0) 0 demoU0 =
      Except.ok (false, demoU0, [⟨0, 0, demoU0, [Event.teamWins 1]⟩]) := rfl
  exact ⟨h, (c1_play_round_teamwins DemoU demoBoard _ _ 0 demoU0 false demoU0 _ h).1.mp rfl⟩

/-- Filtering `List.range n` for one value keeps exactly that value when it
is below `n`. -/
theorem range_filter_eq (n v : Nat) :
    (List.range n).filter (fun w => w == v) = if v < n then [v] else [] := by
  induction n with
  | zero => simp
  | succ n ih =>
    rw [List.range_succ, List.filter_append, ih]
    by_cases h : v < n
    · have hne : ¬(n == v) = true := by simp; omega
      have : v < n + 1 := Nat.lt_succ_of_lt h
      simp [h, this, hne]
    · by_cases h2 : v = n
      · subst h2
        simp [h]
      · have h3 : ¬v < n + 1 := by omega
        have hne : ¬(n == v) = true := by simp; omega
        simp [h, h3, hne]

/-- Of the per-bot viewer deliveries, viewer `v < nviewers` receives the
broadcast exactly once. -/
theorem broadcastToViewers_filter (U : Type) (nv v : Nat) (hv : v < nv)
    (ob : Broadcast U) :
    (broadcastToViewers U nv ob).filter (fun p => p.fst == v) = [(v, ob)] := by
  unfold broadcastToViewers
  rw [List.filter_map]
  have : ((List.range nv).filter ((fun p : Nat × Broadcast U => p.fst == v) ∘
      fun w => (w, ob))) = [v] := by
    have := range_filter_eq nv v
    simpa [Function.comp, hv] using this
  rw [this]
  rfl

/-- Each registered viewer receives exactly one delivery per bot-move, and
its per-viewer delivery subsequence is the broadcast trace itself, in
order. -/
theorem deliveries_filter (U : Type) (nv v : Nat) (hv : v < nv)
    (obs : List (Broadcast U)) :
    ((deliveries U nv obs).filter (fun p => p.fst == v)).map Prod.snd = obs := by
  induction obs with
  | nil => simp [deliveries]
  | cons ob obs ih =>
    have hstep : deliveries U nv (ob :: obs) =
        broadcastToViewers U nv ob ++ deliveries U nv obs := by
      simp [deliveries]
    rw [hstep, List.filter_append, List.map_append, ih,
      broadcastToViewers_filter U nv v hv ob]
    rfl

/-- The bot-index sequence of the delivery trace: each bot index repeated
once per viewer, blocks in trace order (no interleaving or batching across
bots). -/
theorem deliveries_botIdx (U : Type) (nv : Nat) (obs : List (Broadcast U)) :
    (deliveries U nv obs).map (fun p => p.snd.botIdx) =
      ((obs.map Broadcast.botIdx).map (List.replicate nv)).flatten := by
  induction obs with
  | nil => simp [deliveries]
  | cons ob obs ih =>
    have hstep : deliveries U nv (ob :: obs) =
        broadcastToViewers U nv ob ++ deliveries U nv obs := by
      simp [deliveries]
    rw [hstep, List.map_append, ih]
    have hblock : (broadcastToViewers U nv ob).map (fun p => p.snd.botIdx) =
        List.replicate nv ob.botIdx := by
      unfold broadcastToViewers
      rw [List.map_map]
      have hfun : ((fun p : Nat × Broadcast U => p.snd.botIdx) ∘ fun v => (v, ob)) =
          fun _ => ob.botIdx := rfl
      rw [hfun, List.map_const', List.length_range]
    rw [hblock]
    simp

/-- C6: within every round, bots are resolved in fixed ascending bot-index
order — the broadcast trace's bot indices are exactly `0, 1, 2, …` — every
broadcast carries the round index, the trace covers all bots when the round
continues, each registered observer `v` receives exactly one delivery per
bot-move (its delivery subsequence equals the broadcast trace, in order),
and the delivery stream is grouped bot by bot in trace order (each bot's
broadcast goes to all viewers before the next bot is resolved). -/
theorem c6_broadcast_order (U : Type) (B : Board U) (outs : Nat → MoveOutcome)
    (rnd : Nat → Nat) (gt : Nat) (u : U) (c : Bool) (u' : U)
    (obs : List (Broadcast U)) (nviewers : Nat)
    (h : play_round U B outs rnd gt u = Except.ok (c, u', obs)) :
    obs.map Broadcast.botIdx = List.range obs.length ∧
    obs.length ≤ B.nbots ∧
    (c = true → obs.length = B.nbots) ∧
    (∀ ob ∈ obs, ob.round = gt) ∧
    (∀ v, v < nviewers →
      ((deliveries U nviewers obs).filter (fun p => p.fst == v)).map Prod.snd = obs) ∧
    (deliveries U nviewers obs).map (fun p => p.snd.botIdx) =
      ((obs.map Broadcast.botIdx).map (List.replicate nviewers)).flatten := by
  obtain ⟨h1, h2, h3, h4, h5⟩ :=
    playRoundGo_spec U B outs rnd gt (List.range B.nbots) u c u' obs h
  have hlen : obs.length ≤ B.nbots := by simpa using h1.length_le
  refine ⟨?_, hlen, ?_, h3, ?_, deliveries_botIdx U nviewers obs⟩
  · have := prefix_range_eq h1
    simpa using this
  · intro hct
    have := h2 hct
    have hl : (obs.map Broadcast.botIdx).length = (List.range B.nbots).length := by rw [this]
    simpa using hl
  · intro v hv
    exact deliveries_filter U nviewers v hv obs

/-- Concrete run for C6: a quiet demo round resolves bots 0 then 1, and with
two viewers, viewer 0's delivery subsequence is the full broadcast trace. -/
theorem c6_broadcast_order_witness :
    ([(⟨0, 0, demoU0, [Event.boardEvent 0]⟩ : Broadcast DemoU),
        ⟨0, 1, demoU0, [Event.boardEvent 1]⟩].map Broadcast.botIdx = List.range 2) ∧
    ((deliveries DemoU 2 [⟨0, 0, demoU0, [Event.boardEvent 0]⟩,
        ⟨0, 1, demoU0, [Event.boardEvent 1]⟩]).filter (fun p => p.fst == 0)).map Prod.snd =
      [⟨0, 0, demoU0, [Event.boardEvent 0]⟩, ⟨0, 1, demoU0, [Event.boardEvent 1]⟩] := by
  have h : play_round DemoU demoBoard (fun _ => MoveOutcome.ok stop) (fun _ => 0) 0 demoU0 =
      Except.ok (true, demoU0, [⟨0, 0, demoU0, [Event.boardEvent 0]⟩,
        ⟨0, 1, demoU0, [Event.boardEvent 1]⟩]) := rfl
  have hc := c6_broadcast_order DemoU demoBoard _ _ 0 demoU0 true demoU0 _ 2 h
  exact ⟨hc.1, hc.2.2.2.2.1 0 (by decide)⟩

/-- A list all of whose elements equal `g` is pairwise `≤`-sorted. -/
theorem pairwise_le_of_const {l : List Nat} {g : Nat} (h : ∀ x ∈ l, x = g) :
    l.Pairwise (· ≤ ·) := by
  induction l with
  | nil => simp
  | cons a l ih =>
    rw [List.pairwise_cons]
    refine ⟨fun b hb => ?_, ih fun x hx => h x (List.mem_cons_of_mem _ hx)⟩
    rw [h a (List.mem_cons_self _ _), h b (List.mem_cons_of_mem _ hb)]

/-- Structural description of a successful `playGo` run over strictly
ascending round indices: every broadcast belongs to one of those rounds, the
broadcast rounds are weakly ascending, and a broadcast whose events contain
a `TeamWins` is the final broadcast of the match (the engine stops there). -/
theorem playGo_spec (U : Type) (B : Board U) (outs : Nat → Nat → MoveOutcome)
    (rnd : Nat → Nat → Nat) :
    ∀ rounds u u' obs, List.Pairwise (· < ·) rounds →
      playGo U B outs rnd rounds u = Except.ok (u', obs) →
      (∀ ob ∈ obs, ob.round ∈ rounds) ∧
      List.Pairwise (· ≤ ·) (obs.map Broadcast.round) ∧
      (∀ ob ∈ obs, containsTeamWins ob.events = true → ∃ pre, obs = pre ++ [ob]) := by
  intro rounds
  induction rounds with
  | nil =>
    intro u u' obs _ h
    simp only [playGo, Except.ok.injEq, Prod.mk.injEq] at h
    obtain ⟨hu, hobs⟩ := h
    subst hobs
    simp
  | cons gt rest ih =>
    intro u u' obs hsorted h
    have hgtlt : ∀ r ∈ rest, gt < r := (List.pairwise_cons.mp hsorted).1
    have hresttail : List.Pairwise (· < ·) rest := (List.pairwise_cons.mp hsorted).2
    simp only [playGo] at h
    split at h
    · exact absurd h (by simp)
    · rename_i p cont u1 obs1 hround
      obtain ⟨r1, r2, r3, r4, r5⟩ :=
        playRoundGo_spec U B (outs gt) (rnd gt) gt (List.range B.nbots) u cont u1 obs1 hround
      by_cases hcont : cont = true
      · rw [if_pos hcont] at h
        split at h
        · exact absurd h (by simp)
        · rename_i q u2 obs2 hrec
          simp only [Except.ok.injEq, Prod.mk.injEq] at h
          obtain ⟨hu, hobs⟩ := h
          subst hobs
          obtain ⟨ihm, ihp, ihl⟩ := ih u1 u2 obs2 hresttail hrec
          have hnotw1 : ∀ ob ∈ obs1, containsTeamWins ob.events = false := by
            intro ob hob
            by_contra hne
            have : cont = false := r4.mpr ⟨ob, hob, by simpa using hne⟩
            rw [hcont] at this
            cases this
          refine ⟨?_, ?_, ?_⟩
          · intro ob hob
            rcases List.mem_append.mp hob with h1 | h1
            · rw [r3 ob h1]; exact List.mem_cons_self _ _
            · exact List.mem_cons_of_mem _ (ihm ob h1)
          · rw [List.map_append]
            rw [List.pairwise_append]
            refine ⟨pairwise_le_of_const (g := gt) ?_, ihp, ?_⟩
            · intro x hx
              obtain ⟨ob, hob, hx'⟩ := List.mem_map.mp hx
              rw [← hx']; exact r3 ob hob
            · intro a ha b hb
              obtain ⟨oba, hoba, ha'⟩ := List.mem_map.mp ha
              obtain ⟨obb, hobb, hb'⟩ := List.mem_map.mp hb
              have h1 : a = gt := by rw [← ha']; exact r3 oba hoba
              have h2 : b ∈ rest := by rw [← hb']; exact ihm obb hobb
              rw [h1]
              exact Nat.le_of_lt (hgtlt b h2)
          · intro ob hob htw
            rcases List.mem_append.mp hob with h1 | h1
            · rw [hnotw1 ob h1] at htw; cases htw
            · obtain ⟨pre, hpre⟩ := ihl ob h1 htw
              exact ⟨obs1 ++ pre, by rw [hpre, List.append_assoc]⟩
      · rw [if_neg hcont] at h
        simp only [Except.ok.injEq, Prod.mk.injEq] at h
        obtain ⟨hu, hobs⟩ := h
        subst hobs
        have hcf : cont = false := by
          cases cont
          · rfl
          · exact absurd rfl hcont
        refine ⟨?_, ?_, ?_⟩
        · intro ob hob
          rw [r3 ob hob]; exact List.mem_cons_self _ _
        · refine pairwise_le_of_const (g := gt) ?_
          intro x hx
          obtain ⟨ob, hob, hx'⟩ := List.mem_map.mp hx
          rw [← hx']; exact r3 ob hob
        · intro ob hob htw
          obtain ⟨pre, lastob, heq, hltw, hpre⟩ := r5 hcf
          have : ob = lastob := by
            rw [heq] at hob
            rcases List.mem_append.mp hob with h1 | h1
            · rw [hpre ob h1] at htw; cases htw
            · simpa using h1
          subst this
          exact ⟨pre, heq⟩

/-- C5: `play` fails with the team-mismatch error (the source's
`IndexError`, the spec's `TeamMismatch`), before any round executes, exactly
when the number of registered player teams differs from the number of board
teams; with equal counts it runs rounds `0 .. game_time - 1` through
`play_round` (`playGo` over `List.range game_time`), and stops early at the
first "do not continue": every broadcast belongs to a round below
`game_time`, rounds appear in ascending order, and a `TeamWins` broadcast is
the final broadcast of the match. -/
theorem c5_play_fail_fast (U : Type) (B : Board U) (nPlayerTeams gameTime : Nat)
    (outs : Nat → Nat → MoveOutcome) (rnd : Nat → Nat → Nat) (u : U) :
    (play U B nPlayerTeams gameTime outs rnd u = Except.error GameError.teamMismatch ↔
      nPlayerTeams ≠ B.nteams) ∧
    (nPlayerTeams = B.nteams →
      play U B nPlayerTeams gameTime outs rnd u =
        Except.mapError GameError.roundError
          (playGo U B outs rnd (List.range gameTime) u)) ∧
    (∀ u' obs, play U B nPlayerTeams gameTime outs rnd u = Except.ok (u', obs) →
      nPlayerTeams = B.nteams ∧
      (∀ ob ∈ obs, ob.round < gameTime) ∧
      List.Pairwise (· ≤ ·) (obs.map Broadcast.round) ∧
      (∀ ob ∈ obs, containsTeamWins ob.events = true → ∃ pre, obs = pre ++ [ob])) := by
  have hmap : ∀ (x : Except RoundError (U × List (Broadcast U))),
      (match x with
        | Except.error e => Except.error (GameError.roundError e)
        | Except.ok r => Except.ok r) = Except.mapError GameError.roundError x := by
    intro x
    cases x <;> rfl
  refine ⟨?_, ?_, ?_⟩
  · constructor
    · intro h
      by_contra hne
      have hnn : ¬nPlayerTeams ≠ B.nteams := by simp [hne]
      simp only [play, if_neg hnn] at h
      cases hgo : playGo U B outs rnd (List.range gameTime) u with
      | error e => rw [hgo] at h; simp at h
      | ok r => rw [hgo] at h; simp at h
    · intro hne
      simp [play, hne]
  · intro heq
    have hne : ¬nPlayerTeams ≠ B.nteams := by simp [heq]
    simp only [play, if_neg hne]
    exact hmap _
  · intro u' obs h
    by_cases heq : nPlayerTeams = B.nteams
    · have hne : ¬nPlayerTeams ≠ B.nteams := by simp [heq]
      simp only [play, if_neg hne] at h
      cases hgo : playGo U B outs rnd (List.range gameTime) u with
      | error e => rw [hgo] at h; cases h
      | ok r =>
        obtain ⟨u2, obs2⟩ := r
        rw [hgo] at h
        simp only [Except.ok.injEq, Prod.mk.injEq] at h
        obtain ⟨hu, hobs⟩ := h
        subst hobs
        obtain ⟨hm, hp, hl⟩ := playGo_spec U B outs rnd (List.range gameTime) u u2 obs2
          (List.pairwise_lt_range gameTime) hgo
        exact ⟨heq, fun ob hob => List.mem_range.mp (hm ob hob), hp, hl⟩
    · simp only [play, if_pos heq] at h
      cases h

/-- Concrete runs for C5: with one registered team on the two-team demo
board, `play` fails with the team-mismatch error; with two registered teams
and `game_time = 1`, the match runs and every broadcast is from round 0. -/
theorem c5_play_fail_fast_witness :
    play DemoU demoBoard 1 3 (fun _ _ => MoveOutcome.ok stop) (fun _ _ => 0) demoU0 =
      Except.error GameError.teamMismatch ∧
    ∀ ob ∈ [(⟨0, 0, demoU0, [Event.boardEvent 0]⟩ : Broadcast DemoU),
        ⟨0, 1, demoU0, [Event.boardEvent 1]⟩], ob.round < 1 := by
  constructor
  · exact (c5_play_fail_fast DemoU demoBoard 1 3
      (fun _ _ => MoveOutcome.ok stop) (fun _ _ => 0) demoU0).1.mpr (by decide)
  · have h : play DemoU demoBoard 2 1 (fun _ _ => MoveOutcome.ok stop) (fun _ _ => 0) demoU0 =
        Except.ok (demoU0, [⟨0, 0, demoU0, [Event.boardEvent 0]⟩,
          ⟨0, 1, demoU0, [Event.boardEvent 1]⟩]) := rfl
    exact ((c5_play_fail_fast DemoU demoBoard 2 1
      (fun _ _ => MoveOutcome.ok stop) (fun _ _ => 0) demoU0).2.2 _ _ h).2.1

/-- Under the intended handler semantics, a `Disconnected` signal leaves
the universe untouched for that bot and produces exactly one event: a
`TeamWins` naming the other team (`not bot.team_index`, which maps team 0
to team 1 and any other team to 0); no movement event and no `TimeoutEvent`
are produced. -/
theorem c3_disconnect (U : Type) (B : Board U) (rnd i : Nat) (u : U) :
    resolveBot U B MoveOutcome.disconnected rnd i u =
      Except.ok (u, [Event.teamWins (pyNot (B.botAt u i).teamIndex)]) ∧
    pyNot 0 = 1 ∧ pyNot 1 = 0 :=
  ⟨rfl, rfl, rfl⟩

/-- Concrete run for C3: bot 0 (team 0) disconnecting on the demo board
yields the unchanged state and the single event `TeamWins 1`. -/
theorem c3_disconnect_witness :
    resolveBot DemoU demoBoard MoveOutcome.disconnected 0 0 demoU0 =
      Except.ok (demoU0, [Event.teamWins 1]) :=
  (c3_disconnect DemoU demoBoard 0 0 demoU0).1

/-- The fallback candidate list is never empty. -/
theorem fallbackMoves_ne_nil (legal : List Move) : fallbackMoves legal ≠ [] := by
  unfold fallbackMoves
  split
  · simp
  · assumption

/-- The randomly chosen fallback move is one of the candidates. -/
theorem chooseFallback_mem (legal : List Move) (rnd : Nat) :
    chooseFallback legal rnd ∈ fallbackMoves legal := by
  unfold chooseFallback
  have hlen : 0 < (fallbackMoves legal).length :=
    List.length_pos.mpr (fallbackMoves_ne_nil legal)
  have hlt : rnd % (fallbackMoves legal).length < (fallbackMoves legal).length :=
    Nat.mod_lt _ hlen
  rw [List.getD_eq_getElem _ _ hlt]
  exact List.getElem_mem _

/-- When `stop` is among the bot's legal moves, every fallback candidate is
a legal move. -/
theorem fallbackMoves_subset (legal : List Move) (hstop : stop ∈ legal) :
    ∀ m ∈ fallbackMoves legal, m ∈ legal := by
  intro m hm
  unfold fallbackMoves at hm
  split at hm
  · have : m = stop := by simpa using hm
    rw [this]; exact hstop
  · exact List.erase_subset stop legal hm

/-- With distinct legal moves (dict keys), a candidate from the nonempty
"erase stop" branch is never `stop`. -/
theorem chooseFallback_ne_stop (legal : List Move) (hnd : legal.Nodup)
    (hne : legal.erase stop ≠ []) (rnd : Nat) : chooseFallback legal rnd ≠ stop := by
  have hmem := chooseFallback_mem legal rnd
  rw [fallbackMoves, if_neg hne] at hmem
  intro hcontra
  rw [hcontra] at hmem
  exact (hnd.not_mem_erase) hmem

/-- Each fallback candidate is reachable by some random draw. -/
theorem chooseFallback_surj (legal : List Move) :
    ∀ m ∈ fallbackMoves legal, ∃ r, chooseFallback legal r = m := by
  intro m hm
  obtain ⟨n, hn, hget⟩ := List.getElem_of_mem hm
  refine ⟨n, ?_⟩
  unfold chooseFallback
  rw [Nat.mod_eq_of_lt hn, List.getD_eq_getElem _ _ hn, hget]

/-- Under the intended handler semantics: when a bot's move request ends in
`PlayerTimeout` or in an illegal proposed move, and `stop` is among its
legal moves (always true of a real board state, since the bot occupies its
own square), the handler picks the
fallback uniformly from the legal moves with `stop` removed — falling back
to `[stop]` only when nothing else remains: the chosen move is legal, every
candidate is reachable by some random draw, the choice is never `stop` while
another legal move exists, the fallback is applied to the board, and exactly
one `TimeoutEvent` tagged with the offending bot's team is appended to the
produced events. -/
theorem c2_fallback_selection (U : Type) (B : Board U) (outcome : MoveOutcome)
    (rnd i : Nat) (u : U)
    (hout : outcome = MoveOutcome.timeout ∨
      ∃ pm, outcome = MoveOutcome.ok pm ∧ B.moveBot u i pm = Except.error ())
    (hstop : stop ∈ legalAt U B u i)
    (hnd : (legalAt U B u i).Nodup)
    (happly : ∀ mv ∈ legalAt U B u i, ∃ r, B.moveBot u i mv = Except.ok r) :
    chooseFallback (legalAt U B u i) rnd ∈ fallbackMoves (legalAt U B u i) ∧
    chooseFallback (legalAt U B u i) rnd ∈ legalAt U B u i ∧
    (∀ m ∈ fallbackMoves (legalAt U B u i), ∃ r, chooseFallback (legalAt U B u i) r = m) ∧
    ((∃ m ∈ legalAt U B u i, m ≠ stop) → chooseFallback (legalAt U B u i) rnd ≠ stop) ∧
    ∃ u' evs, B.moveBot u i (chooseFallback (legalAt U B u i) rnd) = Except.ok (u', evs) ∧
      resolveBot U B outcome rnd i u =
        Except.ok (u', evs ++ [Event.timeoutEvent (B.botAt u' i).teamIndex]) := by
  have hmem := chooseFallback_mem (legalAt U B u i) rnd
  have hlegal := fallbackMoves_subset (legalAt U B u i) hstop _ hmem
  refine ⟨hmem, hlegal, chooseFallback_surj _, ?_, ?_⟩
  · intro ⟨m, hm, hmne⟩
    have hne : (legalAt U B u i).erase stop ≠ [] := by
      intro hnil
      have : m ∈ (legalAt U B u i).erase stop := (List.mem_erase_of_ne hmne).mpr hm
      rw [hnil] at this
      cases this
    exact chooseFallback_ne_stop _ hnd hne rnd
  · obtain ⟨⟨u', evs⟩, happ⟩ := happly _ hlegal
    refine ⟨u', evs, happ, ?_⟩
    have hfb : resolveFallback U B i rnd u =
        Except.ok (u', evs ++ [Event.timeoutEvent (B.botAt u' i).teamIndex]) := by
      simp only [resolveFallback, legalAt] at *
      rw [if_pos hstop, happ]
    rcases hout with h1 | ⟨pm, hpm, herr⟩
    · rw [h1]
      simpa [resolveBot] using hfb
    · rw [hpm]
      simp only [resolveBot]
      rw [herr]
      exact hfb

/-- Concrete run for C2: on the demo board (legal moves `stop` and east) a
timeout for bot 0 falls back to east — never `stop` — moves the bot, and
appends one `TimeoutEvent` for team 0. -/
theorem c2_fallback_selection_witness :
    resolveBot DemoU demoBoard MoveOutcome.timeout 5 0 demoU0 =
      Except.ok ([⟨0, (1, 0)⟩, ⟨1, (3, 0)⟩],
        [Event.boardEvent 0, Event.timeoutEvent 0]) ∧
    chooseFallback (legalAt DemoU demoBoard demoU0 0) 5 ≠ stop := by
  refine ⟨rfl, ?_⟩
  exact (c2_fallback_selection DemoU demoBoard MoveOutcome.timeout 5 0 demoU0
    (Or.inl rfl) (by decide) (by decide)
    (fun mv _ => ⟨_, rfl⟩)).2.2.2.1 ⟨(1, 0), by decide, by decide⟩

/-- C9: the fallback path removes `stop` from the legal-move list
unconditionally, so it only succeeds when `stop` was legal: if a timeout or
illegal proposed move occurs while `stop` is not among the bot's legal
moves, move resolution fails with the `ValueError` of `list.remove` instead
of applying any fallback move. -/
theorem c9_stop_precondition (U : Type) (B : Board U) (outcome : MoveOutcome)
    (rnd i : Nat) (u : U)
    (hout : outcome = MoveOutcome.timeout ∨
      ∃ pm, outcome = MoveOutcome.ok pm ∧ B.moveBot u i pm = Except.error ())
    (hstop : stop ∉ legalAt U B u i) :
    resolveBot U B outcome rnd i u = Except.error RoundError.valueError ∧
    ∀ r, resolveBot U B outcome rnd i u ≠ Except.ok r := by
  have hfb : resolveFallback U B i rnd u = Except.error RoundError.valueError := by
    simp only [resolveFallback, legalAt] at *
    rw [if_neg hstop]
  have hmain : resolveBot U B outcome rnd i u = Except.error RoundError.valueError := by
    rcases hout with h1 | ⟨pm, hpm, herr⟩
    · rw [h1]
      simpa [resolveBot] using hfb
    · rw [hpm]
      simp only [resolveBot]
      rw [herr]
      exact hfb
  exact ⟨hmain, fun r h => by rw [hmain] at h; cases h⟩

/-- Concrete run for C9: on the board whose only legal move is east, a
timeout for bot 0 makes move resolution fail with the `ValueError`. -/
theorem c9_stop_precondition_witness :
    resolveBot DemoU demoBoardNoStop MoveOutcome.timeout 0 0 demoU0 =
      Except.error RoundError.valueError :=
  (c9_stop_precondition DemoU demoBoardNoStop MoveOutcome.timeout 0 0 demoU0
    (Or.inl rfl) (by decide)).1

/-- C7: `is_response` is false for every `Query` and every `Notification`,
true for every `Response`, and true for an `Error` exactly when its `id` is
non-null. -/
theorem c7_is_response (m p i r e v : Val) :
    Message.is_response (Message.query m p v) = false ∧
    Message.is_response (Message.notification m p) = false ∧
    Message.is_response (Message.response r i) = true ∧
    (Message.is_response (Message.error e i) = true ↔ i ≠ Val.none) := by
  refine ⟨rfl, rfl, rfl, ?_⟩
  cases i <;> simp [Message.is_response]

/-- Concrete instances for C7 across the four variants. -/
theorem c7_is_response_witness :
    Message.is_response (Message.query (Val.str "move") (Val.list []) (Val.int 1)) = false ∧
    Message.is_response (Message.response (Val.int 2) (Val.int 1)) = true ∧
    Message.is_response (Message.error (Val.str "bad") Val.none) = false ∧
    Message.is_response (Message.error (Val.str "bad") (Val.int 1)) = true := by
  have h1 := c7_is_response (Val.str "move") (Val.list []) Val.none (Val.int 2)
    (Val.str "bad") (Val.int 1)
  have h2 := c7_is_response (Val.str "move") (Val.list []) (Val.int 1) (Val.int 2)
    (Val.str "bad") (Val.int 1)
  refine ⟨h1.1, h2.2.2.1, ?_, h2.2.2.2.mpr (by intro h; cases h)⟩
  cases hx : Message.is_response (Message.error (Val.str "bad") Val.none)
  · rfl
  · exact absurd (h1.2.2.2.mp hx) (by simp)

/-- C4: decoding the structural form produced by encoding reconstructs the
message: for every message `m`, `_load_message m.dict = ok m`, and in
particular `Query("move", [3], "q-7")` round-trips to an equal `Query`. -/
theorem c4_roundtrip :
    (∀ m : Message, _load_message m.dict = Except.ok m) ∧
    _load_message (Message.query (Val.str "move") (Val.list [Val.int 3])
        (Val.str "q-7")).dict =
      Except.ok (Message.query (Val.str "move") (Val.list [Val.int 3])
        (Val.str "q-7")) := by
  constructor
  · intro m
    cases m <;> rfl
  · rfl

/-- C8: `_load_message` fails — with the error carrying the offending input
— exactly when the key set of the structural form matches none of the four
variants' field sets, and when a variant matches, the first one in the fixed
priority order Query, Notification, Response, Error is the one constructed. -/
theorem c8_decode_unrecognized (d : Dict) :
    (_load_message d = Except.error d ↔
      hasExactKeys d ["method", "params", "id"] = false ∧
      hasExactKeys d ["method", "params"] = false ∧
      hasExactKeys d ["result", "id"] = false ∧
      hasExactKeys d ["error", "id"] = false) ∧
    (∀ e, _load_message d = Except.error e → e = d) ∧
    (hasExactKeys d ["method", "params", "id"] = true →
      _load_message d =
        Except.ok (Message.query (getF d "method") (getF d "params") (getF d "id"))) ∧
    (hasExactKeys d ["method", "params", "id"] = false →
      hasExactKeys d ["method", "params"] = true →
      _load_message d =
        Except.ok (Message.notification (getF d "method") (getF d "params"))) ∧
    (hasExactKeys d ["method", "params", "id"] = false →
      hasExactKeys d ["method", "params"] = false →
      hasExactKeys d ["result", "id"] = true →
      _load_message d = Except.ok (Message.response (getF d "result") (getF d "id"))) ∧
    (hasExactKeys d ["method", "params", "id"] = false →
      hasExactKeys d ["method", "params"] = false →
      hasExactKeys d ["result", "id"] = false →
      hasExactKeys d ["error", "id"] = true →
      _load_message d = Except.ok (Message.error (getF d "error") (getF d "id"))) := by
  unfold _load_message
  by_cases h1 : hasExactKeys d ["method", "params", "id"] = true
  · simp [h1]
  · by_cases h2 : hasExactKeys d ["method", "params"] = true
    · simp [h1, h2]
    · by_cases h3 : hasExactKeys d ["result", "id"] = true
      · simp [h1, h2, h3]
      · by_cases h4 : hasExactKeys d ["error", "id"] = true
        · simp [h1, h2, h3, h4]
        · simp [h1, h2, h3, h4]

/-- Concrete instance for C8: a one-field form matching no variant is
rejected with the offending input, and the `Response` field set decodes as a
`Response`. -/
theorem c8_decode_unrecognized_witness :
    _load_message [("foo", Val.int 1)] = Except.error [("foo", Val.int 1)] ∧
    _load_message [("result", Val.int 2), ("id", Val.int 1)] =
      Except.ok (Message.response (Val.int 2) (Val.int 1)) := by
  constructor
  · exact (c8_decode_unrecognized [("foo", Val.int 1)]).1.mpr ⟨rfl, rfl, rfl, rfl⟩
  · exact (c8_decode_unrecognized [("result", Val.int 2), ("id", Val.int 1)]).2.2.2.2.1
      rfl rfl rfl

/-- C10: a freshly constructed `Query` has no reply channel bound
(`channel = None`), so `reply` and `reply_error` fail (the `AttributeError`
of `None.put`) rather than delivering anything, while `response` and
`error_msg` still build the `Response` / `Error` carrying the query's id
without needing a channel. -/
theorem c10_fresh_query_channel (method params id r e : Val) :
    (QueryObj.init method params id).channel = Option.none ∧
    (QueryObj.init method params id).reply r = Except.error () ∧
    (QueryObj.init method params id).reply_error e = Except.error () ∧
    (QueryObj.init method params id).response r = Message.response r id ∧
    (QueryObj.init method params id).error_msg e = Message.error e id :=
  ⟨rfl, rfl, rfl, rfl, rfl⟩

/-- Concrete instance for C10. -/
theorem c10_fresh_query_channel_witness :
    (QueryObj.init (Val.str "move") (Val.list [Val.int 3]) (Val.str "q-7")).reply
      (Val.int 0) = Except.error () ∧
    (QueryObj.init (Val.str "move") (Val.list [Val.int 3]) (Val.str "q-7")).response
      (Val.int 0) = Message.response (Val.int 0) (Val.str "q-7") := by
  have h := c10_fresh_query_channel (Val.str "move") (Val.list [Val.int 3])
    (Val.str "q-7") (Val.int 0) (Val.int 9)
  exact ⟨h.2.1, h.2.2.2.1⟩

/-- C2: the fallback policy the claim describes is implemented by the
handler body (see `c2_fallback_selection`), but the handler is unreachable:
under the literal semantics of the source, a `PlayerTimeout` (or an illegal
proposed move) makes move resolution raise `NameError` — the first except
clause names `uni`, which no import of `game_master.py` binds — so no
fallback move is applied and no `TimeoutEvent` is produced. -/
theorem c2_timeout_nameerror :
    resolveBotPy DemoU demoBoard MoveOutcome.timeout 0 0 demoU0 =
      Except.error RoundError.nameError ∧
    (∀ (U : Type) (B : Board U) (rnd i : Nat) (u : U),
      resolveBotPy U B MoveOutcome.timeout rnd i u =
        Except.error RoundError.nameError) ∧
    (∀ (U : Type) (B : Board U) (outcome : MoveOutcome) (rnd i : Nat) (u : U) r,
      resolveBotPy U B outcome rnd i u = Except.ok r →
        ∃ mv, outcome = MoveOutcome.ok mv ∧ B.moveBot u i mv = Except.ok r) := by
  refine ⟨rfl, fun U B rnd i u => rfl, ?_⟩
  intro U B outcome rnd i u r h
  cases outcome with
  | ok mv =>
    refine ⟨mv, rfl, ?_⟩
    simp only [resolveBotPy] at h
    cases hmb : B.moveBot u i mv with
    | ok r2 => rw [hmb] at h; simpa using h
    | error e => rw [hmb] at h; cases h
  | timeout => cases h
  | disconnected => cases h

/-- Closed consequence of `c2_timeout_nameerror` at the demo board. -/
theorem c2_timeout_nameerror_witness :
    resolveBotPy DemoU demoBoard MoveOutcome.timeout 7 1 demoU0 =
      Except.error RoundError.nameError :=
  c2_timeout_nameerror.2.1 DemoU demoBoard 7 1 demoU0

/-- C3: the disconnect handler the claim describes is written in the source
(see `c3_disconnect` for its semantics), but it is unreachable: matching a
`PlayerDisconnected` exception first evaluates the clause
`except (uni.IllegalMoveException, PlayerTimeout)`, whose unbound name
`uni` raises `NameError`, so the single `TeamWins` event is never
produced. -/
theorem c3_disconnect_nameerror :
    resolveBotPy DemoU demoBoard MoveOutcome.disconnected 0 0 demoU0 =
      Except.error RoundError.nameError ∧
    (∀ (U : Type) (B : Board U) (rnd i : Nat) (u : U),
      resolveBotPy U B MoveOutcome.disconnected rnd i u =
        Except.error RoundError.nameError ∧
      resolveBot U B MoveOutcome.disconnected rnd i u =
        Except.ok (u, [Event.teamWins (pyNot (B.botAt u i).teamIndex)])) :=
  ⟨rfl, fun U B rnd i u => ⟨rfl, rfl⟩⟩

/-- Closed consequence of `c3_disconnect_nameerror` at the demo board. -/
theorem c3_disconnect_nameerror_witness :
    resolveBotPy DemoU demoBoard MoveOutcome.disconnected 3 1 demoU0 =
      Except.error RoundError.nameError :=
  (c3_disconnect_nameerror.2 DemoU demoBoard 3 1 demoU0).1
